import Mathlib

/-!
Shallow embedding of the verti-guard repository's advisor, client,
telemetry-bridge and optimizer code, with theorems checking the
natural-language specification against it.

Python strings are modelled as lists of characters (`Str`), Python dicts
as association lists, JSON values (`json.loads` results) as the inductive
`Jval`, exceptions as values of explicit error types, and fallible external
collaborators (the Gemini model transport, DSPy, the ddtrace LLMObs sink)
as `Except`-valued oracles passed in as parameters.
-/

/-- Python strings, modelled as lists of characters. -/
abbrev Str := List Char

/-- A Lean string literal as the model's string type. -/
def str (s : String) : Str := s.data

/-- JSON whitespace, as skipped by `json.loads`. -/
def jsonWs (c : Char) : Bool := c = ' ' || c = '\t' || c = '\n' || c = '\r'

/-- Whitespace stripped by Python `str.strip()` (its ASCII part). -/
def pyWs (c : Char) : Bool := jsonWs c || c = '\x0b' || c = '\x0c'

/-- Skip leading JSON whitespace. -/
def skipWs (s : Str) : Str := List.dropWhile jsonWs s

/-- Python `str.strip()`: drop whitespace from both ends. -/
def pyStrip (s : Str) : Str := List.rdropWhile pyWs (List.dropWhile pyWs s)

/-- Python `str.startswith(p)`. -/
def pyStartsWith (p s : Str) : Bool := decide (p <+: s)

/-- Python `str.endswith(p)`. -/
def pyEndsWith (p s : Str) : Bool := decide (p <:+ s)

/-- JSON-like values: the shape of `json.loads` results on the advisor's model
responses. Numbers keep their source literal (no numeric claim depends on
their value). -/
inductive Jval where
  | jnull : Jval
  | jbool : Bool → Jval
  | jnum : Str → Jval
  | jstr : Str → Jval
  | jarr : List Jval → Jval
  | jobj : List (Str × Jval) → Jval

/-- Python dict lookup on an association list (first match wins). -/
def lookupKey {α : Type} (k : Str) : List (Str × α) → Option α
  | [] => none
  | (k', v) :: rest => if k' = k then some v else lookupKey k rest

/-- Python dict insertion: an existing key's value is replaced in place, a new
key is appended at the end (insertion order). -/
def insertKey {α : Type} (k : Str) (v : α) : List (Str × α) → List (Str × α)
  | [] => [(k, v)]
  | (k', v') :: rest =>
    if k' = k then (k', v) :: rest else (k', v') :: insertKey k v rest

/-- Field access on a JSON object value. -/
def jfield (k : Str) : Jval → Option Jval
  | Jval.jobj fields => lookupKey k fields
  | _ => none

/-! ### A model of `json.loads`

A fuel-indexed recursive-descent parser for the JSON grammar (objects,
arrays, strings with escapes, number literals, `true`/`false`/`null`),
requiring the whole input to be consumed up to trailing whitespace, as
Python's `json.loads` does. -/

/-- A character that may appear in a JSON number literal. -/
def numChar (c : Char) : Bool :=
  c.isDigit || c = '-' || c = '+' || c = '.' || c = 'e' || c = 'E'

/-- Parse the body of a JSON string after the opening quote; an escape
consumes the following character. Returns the content and the remainder
after the closing quote. -/
def parseJString : Nat → Str → Option (Str × Str)
  | 0, _ => none
  | Nat.succ f, s =>
    match s with
    | [] => none
    | c :: rest =>
      if c = '"' then some ([], rest)
      else if c = '\\' then
        match rest with
        | [] => none
        | d :: rest2 => (parseJString f rest2).map (fun p => (d :: p.1, p.2))
      else (parseJString f rest).map (fun p => (c :: p.1, p.2))

/-- Parse a JSON number literal: the maximal run of number characters. -/
def parseNumber (s : Str) : Option (Str × Str) :=
  let lit := List.takeWhile numChar s
  if lit = [] then none else some (lit, List.dropWhile numChar s)

/-- Does the input start with the character `c`? -/
def headIs (c : Char) (s : Str) : Bool :=
  match s with
  | [] => false
  | d :: _ => d = c

mutual

/-- Parse one JSON value at the head of the input (no leading whitespace). -/
def parseValue : Nat → Str → Option (Jval × Str)
  | 0, _ => none
  | Nat.succ f, s =>
    match s with
    | [] => none
    | c :: rest =>
      if c = '"' then (parseJString f rest).map (fun p => (Jval.jstr p.1, p.2))
      else if c = '{' then
        if headIs '}' (skipWs rest) then some (Jval.jobj [], (skipWs rest).tail)
        else (parseMembers f (skipWs rest)).map (fun p => (Jval.jobj p.1, p.2))
      else if c = '[' then
        if headIs ']' (skipWs rest) then some (Jval.jarr [], (skipWs rest).tail)
        else (parseItems f (skipWs rest)).map (fun p => (Jval.jarr p.1, p.2))
      else if c = 't' then
        if pyStartsWith (str "rue") rest then some (Jval.jbool true, List.drop 3 rest)
        else none
      else if c = 'f' then
        if pyStartsWith (str "alse") rest then some (Jval.jbool false, List.drop 4 rest)
        else none
      else if c = 'n' then
        if pyStartsWith (str "ull") rest then some (Jval.jnull, List.drop 3 rest)
        else none
      else if c = '-' || c.isDigit then
        (parseNumber s).map (fun p => (Jval.jnum p.1, p.2))
      else none

/-- Parse the comma-separated items of a non-empty JSON array, including the
closing bracket. -/
def parseItems : Nat → Str → Option (List Jval × Str)
  | 0, _ => none
  | Nat.succ f, s =>
    match parseValue f s with
    | none => none
    | some (v, s1) =>
      if headIs ',' (skipWs s1) then
        match parseItems f (skipWs (skipWs s1).tail) with
        | none => none
        | some (vs, s3) => some (v :: vs, s3)
      else if headIs ']' (skipWs s1) then some ([v], (skipWs s1).tail)
      else none

/-- Parse the members of a non-empty JSON object, including the closing
brace. -/
def parseMembers : Nat → Str → Option (List (Str × Jval) × Str)
  | 0, _ => none
  | Nat.succ f, s =>
    if headIs '"' s then
      match parseJString f s.tail with
      | none => none
      | some (key, s2) =>
        if headIs ':' (skipWs s2) then
          match parseValue f (skipWs (skipWs s2).tail) with
          | none => none
          | some (v, s4) =>
            if headIs ',' (skipWs s4) then
              match parseMembers f (skipWs (skipWs s4).tail) with
              | none => none
              | some (ms, s6) => some ((key, v) :: ms, s6)
            else if headIs '}' (skipWs s4) then some ([(key, v)], (skipWs s4).tail)
            else none
        else none
    else none

end

/-- Model of Python `json.loads`: parse one value, allowing only whitespace
around it; anything else fails (returns `none` where Python raises
`json.JSONDecodeError`). -/
def jsonLoads (s : Str) : Option Jval :=
  match parseValue (2 * s.length + 2) (skipWs s) with
  | some (v, rest) => if skipWs rest = [] then some v else none
  | none => none

/-! ### The advisor's response handling (root_cause.py) -/

/-- The cleanup `_run_analysis` / `_run_evaluation_analysis` apply to the raw
model response before `json.loads`: strip, drop a leading ```json or ```
fence, drop a trailing ``` fence, strip again. -/
def cleanResponseText (text : Str) : Str :=
  let t1 := pyStrip text
  let t2 := if pyStartsWith (str "```json") t1 then List.drop 7 t1 else t1
  let t3 := if pyStartsWith (str "```") t2 then List.drop 3 t2 else t2
  let t4 := if pyEndsWith (str "```") t3 then List.take (t3.length - 3) t3 else t3
  pyStrip t4

/-- The fallback dict `_run_analysis` builds when `json.loads` fails. -/
def analysisParseFallback (text : Str) : Jval :=
  Jval.jobj
    [ (str "root_cause", Jval.jstr (str "Unable to parse analysis")),
      (str "suggested_fixes", Jval.jarr [Jval.jstr (str "Review error context manually")]),
      (str "files_to_check", Jval.jarr []),
      (str "debug_steps", Jval.jarr [Jval.jstr (str "Check logs")]),
      (str "severity", Jval.jstr (str "medium")),
      (str "explanation", Jval.jstr text) ]

/-- The fallback dict `_run_evaluation_analysis` builds when `json.loads`
fails. -/
def evalParseFallback (text : Str) : Jval :=
  Jval.jobj
    [ (str "root_cause", Jval.jstr (str "Unable to parse analysis")),
      (str "suggested_fixes", Jval.jarr []),
      (str "prompt_improvements", Jval.jarr []),
      (str "severity", Jval.jstr (str "medium")),
      (str "explanation", Jval.jstr text) ]

/-- `_run_analysis`'s response parsing: clean the text, `json.loads` it, and
degrade to the fallback dict (carrying the cleaned text) instead of raising. -/
def parseAnalysisResponse (text : Str) : Jval :=
  match jsonLoads (cleanResponseText text) with
  | some analysis => analysis
  | none => analysisParseFallback (cleanResponseText text)

/-- `_run_evaluation_analysis`'s response parsing. -/
def parseEvalAnalysisResponse (text : Str) : Jval :=
  match jsonLoads (cleanResponseText text) with
  | some analysis => analysis
  | none => evalParseFallback (cleanResponseText text)

/-- `_run_analysis`: one model call (the `llm` oracle, which may raise), whose
response text is then parsed without raising. The prompt template around the
context is elided (it does not affect any claim). -/
def runAnalysis (llm : Str → Except Str Str) (context : Str) : Except Str Jval :=
  match llm context with
  | Except.error e => Except.error e
  | Except.ok text => Except.ok (parseAnalysisResponse text)

/-- `_run_evaluation_analysis`: as `runAnalysis` with the evaluation fallback. -/
def runEvalAnalysis (llm : Str → Except Str Str) (context : Str) : Except Str Jval :=
  match llm context with
  | Except.error e => Except.error e
  | Except.ok text => Except.ok (parseEvalAnalysisResponse text)

/-! ### The Root-Cause Analyzer (root_cause.py) -/

/-- A Python exception as the analyzer sees one: its type name and its
`str()` message. -/
structure PyExn where
  typeName : Str
  message : Str

/-- `_get_cache_key`: `f"{type(error).__name__}:{str(error)[:100]}"`. -/
def getCacheKey (e : PyExn) : Str := e.typeName ++ ':' :: List.take 100 e.message

/-- The analyzer's mutable state: `_analysis_cache`, a dict from cache keys to
analyses. -/
structure AnalyzerState where
  cache : List (Str × Jval)

/-- The generic fallback dict `analyze_error` returns when anything inside it
raises (root_cause.py lines 101-108). -/
def errorFallback (e : Str) : Jval :=
  Jval.jobj
    [ (str "root_cause", Jval.jstr (str "Analysis failed")),
      (str "suggested_fixes", Jval.jarr [Jval.jstr (str "Manual investigation required")]),
      (str "files_to_check", Jval.jarr []),
      (str "debug_steps", Jval.jarr [Jval.jstr (str "Review error logs"), Jval.jstr (str "Check input data")]),
      (str "severity", Jval.jstr (str "unknown")),
      (str "error", Jval.jstr e) ]

/-- The generic fallback dict `analyze_evaluation_failure` returns when
anything inside it raises (root_cause.py lines 161-167). -/
def evalErrorFallback (e : Str) : Jval :=
  Jval.jobj
    [ (str "root_cause", Jval.jstr (str "Analysis failed")),
      (str "suggested_fixes", Jval.jarr []),
      (str "prompt_improvements", Jval.jarr []),
      (str "severity", Jval.jstr (str "medium")),
      (str "error", Jval.jstr e) ]

/-- `analyze_error`. `buildCtx` is the outcome of `_build_error_context`
(whose `str()` / `json.dumps` / traceback formatting may itself raise, hence
`Except`); `llm` the model transport. Mirrors the source's order: build the
context, check the cache, run the analysis, cache the result; any exception
from the fallible steps is downgraded to `errorFallback`. Returns the result
dict, the new analyzer state, and how many model calls were issued. -/
def analyzeError (buildCtx : Except Str Str) (llm : Str → Except Str Str)
    (st : AnalyzerState) (err : PyExn) : Jval × AnalyzerState × Nat :=
  match buildCtx with
  | Except.error e => (errorFallback e, st, 0)
  | Except.ok context =>
    match lookupKey (getCacheKey err) st.cache with
    | some cached => (cached, st, 0)
    | none =>
      match runAnalysis llm context with
      | Except.ok analysis =>
        (analysis, ⟨insertKey (getCacheKey err) analysis st.cache⟩, 1)
      | Except.error e => (errorFallback e, st, 1)

/-- `analyze_evaluation_failure`. `buildCtx` is the outcome of
`_build_evaluation_context`; no cache is involved. Returns the result dict
and how many model calls were issued. -/
def analyzeEvaluationFailure (buildCtx : Except Str Str)
    (llm : Str → Except Str Str) : Jval × Nat :=
  match buildCtx with
  | Except.error e => (evalErrorFallback e, 0)
  | Except.ok context =>
    match runEvalAnalysis llm context with
    | Except.ok analysis => (analysis, 1)
    | Except.error e => (evalErrorFallback e, 1)

/-- `clear_cache`. -/
def clearCache (_st : AnalyzerState) : AnalyzerState := ⟨[]⟩

/-- `get_cache_stats`: the reported `cached_analyses` count. -/
def getCacheStats (st : AnalyzerState) : Nat := st.cache.length

/-- A sequence of `analyze_error` calls, each with its own
`_build_error_context` outcome, threading the analyzer state. -/
def runCalls (llm : Str → Except Str Str) (st : AnalyzerState) :
    List (Except Str Str × PyExn) → AnalyzerState
  | [] => st
  | (b, e) :: rest => runCalls llm (analyzeError b llm st e).2.1 rest

/-- `_truncate`: the text unchanged when it fits, else its first `maxLength`
characters followed by the marker. -/
def truncate (text : Str) (maxLength : Nat) : Str :=
  if text.length ≤ maxLength then text
  else List.take maxLength text ++ str "... (truncated)"

/-- The `parts` list `_build_error_context` assembles. `nodeName`, `inputData`,
`outputData` and `contextJson` are `none` when the corresponding Python value
is falsy (the section is skipped); `stackTrace` stands for the formatted
traceback and `contextJson` for `json.dumps(context, indent=2)`. -/
def buildErrorContextParts (errType errMsg : Str) (nodeName : Option Str)
    (stackTrace : Str) (inputData outputData contextJson : Option Str) : List Str :=
  [ str "# Error Analysis Request\n",
    str "## Error Type: " ++ errType,
    str "## Error Message: " ++ errMsg ++ str "\n" ]
  ++ (match nodeName with
      | some n => [str "## Node: " ++ n ++ str "\n"]
      | none => [])
  ++ [ str "## Stack Trace:\n```\n" ++ stackTrace ++ str "\n```\n" ]
  ++ (match inputData with
      | some s => [str "## Input Data:\n```\n" ++ truncate s 500 ++ str "\n```\n"]
      | none => [])
  ++ (match outputData with
      | some s => [str "## Output Data (if any):\n```\n" ++ truncate s 500 ++ str "\n```\n"]
      | none => [])
  ++ (match contextJson with
      | some j => [str "## Additional Context:\n" ++ j ++ str "\n"]
      | none => [])
  ++ [ str "\n## Analysis Instructions:",
       str "Analyze this error and provide:",
       str "1. Root cause (be specific)",
       str "2. 3-5 suggested fixes (actionable, specific)",
       str "3. Files or code areas to check",
       str "4. Debug steps to reproduce/investigate",
       str "5. Severity assessment (critical/high/medium/low)" ]

/-- `_build_error_context`: `"\n".join(parts)`. -/
def buildErrorContext (errType errMsg : Str) (nodeName : Option Str)
    (stackTrace : Str) (inputData outputData contextJson : Option Str) : Str :=
  List.intercalate (str "\n")
    (buildErrorContextParts errType errMsg nodeName stackTrace inputData outputData contextJson)

/-! ### The VertiGuard client (client.py) -/

/-- Modelled from the spec: `NodeContract` (§3 of the spec; its schema module
is not among the repository's files). Only its presence in the registry
matters to the claims; as a pydantic model an instance is always truthy. -/
structure NodeContract where
  name : Str
  expected_behaviors : List Str
  unexpected_behaviors : List Str

/-- The configuration slice `VertiGuard.evaluate` reads: `config.nodes`. -/
structure VGConfig where
  nodes : List (Str × NodeContract)

/-- Python exceptions raised by client.py. -/
inductive PyErr where
  | valueError : Str → PyErr
  | runtimeError : Str → PyErr

/-- `VertiGuard.evaluate`: look the node up in `config.nodes`; a miss raises
`ValueError` before the evaluation engine is touched, a hit delegates to the
engine (modelled as the `engine` oracle, its module not being among the
repository's files). Returns the outcome and how many engine calls were
made. -/
def vgEvaluate {α : Type} (cfg : VGConfig)
    (engine : NodeContract → Str → Str → Option Str → α)
    (nodeName : Str) (inputData outputData : Str) (context : Option Str) :
    Except PyErr α × Nat :=
  match lookupKey nodeName cfg.nodes with
  | none => (Except.error (PyErr.valueError (str "Unknown node: " ++ nodeName)), 0)
  | some nodeConfig => (Except.ok (engine nodeConfig inputData outputData context), 1)

/-- The module-level client object `init` constructs. -/
structure VertiGuardClient where
  config : VGConfig

/-- `init`: build a client from the loaded config, store it in the module
global, return it. The prior global (`_g`) is overwritten. -/
def initClient (config : VGConfig) (_g : Option VertiGuardClient) :
    VertiGuardClient × Option VertiGuardClient :=
  (⟨config⟩, some ⟨config⟩)

/-- `get_client`: the global client, or `RuntimeError` when it is unset. -/
def getClient (g : Option VertiGuardClient) : Except PyErr VertiGuardClient :=
  match g with
  | none => Except.error (PyErr.runtimeError
      (str "VertiGuard not initialized. Call vertiguard.init() first."))
  | some c => Except.ok c

/-- `is_initialized`: `_client is not None`. -/
def isInitialized (g : Option VertiGuardClient) : Bool := g.isSome

/-! ### The LLMObs bridge (llmobs_bridge.py) -/

/-- How a Python method call ends: a normal return (with the warnings it
logged) or a raised exception. -/
inductive CallOutcome (α : Type) where
  | normalReturn : α → List Str → CallOutcome α
  | raised : Str → CallOutcome α

/-- `LLMObsBridge.annotate`: the underlying `LLMObs.annotate` call (the `op`
oracle) is wrapped in try/except; a failure is logged as a warning and the
method returns normally. -/
def bridgeAnnotate (op : Except Str Unit) : CallOutcome Unit :=
  match op with
  | Except.ok _ => CallOutcome.normalReturn () []
  | Except.error e => CallOutcome.normalReturn () [str "Failed to annotate span: " ++ e]

/-- `LLMObsBridge.submit_evaluation`: same try/except shape around
`LLMObs.submit_evaluation`. -/
def bridgeSubmitEvaluation (op : Except Str Unit) : CallOutcome Unit :=
  match op with
  | Except.ok _ => CallOutcome.normalReturn () []
  | Except.error e => CallOutcome.normalReturn () [str "Failed to submit evaluation: " ++ e]

/-- `LLMObsBridge.flush`: same try/except shape around `LLMObs.flush`. -/
def bridgeFlush (op : Except Str Unit) : CallOutcome Unit :=
  match op with
  | Except.ok _ => CallOutcome.normalReturn () []
  | Except.error e => CallOutcome.normalReturn () [str "Error flushing LLMObs: " ++ e]

/-! ### The DSPy optimizer (dspy_optimizer.py) -/

/-- One entry of `failed_examples`: a dict read with
`example.get("input"/"output"/"issue", "N/A")`. -/
structure FailedExample where
  inputText : Option Str
  outputText : Option Str
  issue : Option Str

/-- `dict.get(key, "N/A")`. -/
def getOrNA (o : Option Str) : Str :=
  match o with
  | some s => s
  | none => str "N/A"

/-- Decimal rendering of a number, for `f"Example {i}"`. -/
def natStr (n : Nat) : Str := Nat.toDigits 10 n

/-- One failed-example block of `_build_optimization_context`. -/
def exampleBlock (i : Nat) (ex : FailedExample) : Str :=
  str "\nExample " ++ natStr i ++ str ":" ++
  str "\nInput: " ++ getOrNA ex.inputText ++
  str "\nOutput: " ++ getOrNA ex.outputText ++
  str "\nIssue: " ++ getOrNA ex.issue

/-- The blocks for `enumerate(failed_examples[:3], 1)`. -/
def exampleBlocks (i : Nat) : List FailedExample → List Str
  | [] => []
  | ex :: rest => exampleBlock i ex :: exampleBlocks (i + 1) rest

/-- `_build_optimization_context`. -/
def buildOptimizationContext (originalPrompt failureReason : Str)
    (expected unexpected : List Str) (failedExamples : List FailedExample) : Str :=
  let parts :=
    [ str "Original Prompt:\n" ++ originalPrompt ++ str "\n",
      str "Failure Reason:\n" ++ failureReason ++ str "\n",
      str "Expected Behaviors:\n" ++
        List.intercalate (str "\n") (expected.map (fun b => str "- " ++ b)),
      str "\nUnexpected Behaviors to Avoid:\n" ++
        List.intercalate (str "\n") (unexpected.map (fun b => str "- " ++ b)) ]
  let parts := if failedExamples.isEmpty then parts
    else parts ++ [str "\nFailed Examples:"] ++ exampleBlocks 1 (failedExamples.take 3)
  List.intercalate (str "\n") parts

/-- What the DSPy `PromptImprover` signature returns (untrusted model output:
kept as raw JSON-like values). -/
structure ImprovedResult where
  improvedPrompt : Jval
  changesMade : Jval
  confidence : Jval
  reasoning : Jval

/-- The dict `optimize_prompt` returns when DSPy is unavailable
(dspy_optimizer.py lines 98-104). -/
def dspyDisabledResult (originalPrompt : Str) : Jval :=
  Jval.jobj
    [ (str "improved_prompt", Jval.jstr originalPrompt),
      (str "changes_made", Jval.jarr []),
      (str "confidence", Jval.jnum (str "0.0")),
      (str "reasoning", Jval.jstr (str "DSPy not available")),
      (str "error", Jval.jstr (str "DSPy not installed or failed to initialize")) ]

/-- The dict `optimize_prompt` returns when optimization raised
(dspy_optimizer.py lines 145-151). -/
def optimizeFailedResult (originalPrompt e : Str) : Jval :=
  Jval.jobj
    [ (str "improved_prompt", Jval.jstr originalPrompt),
      (str "changes_made", Jval.jarr []),
      (str "confidence", Jval.jnum (str "0.0")),
      (str "reasoning", Jval.jstr (str "Optimization failed: " ++ e)),
      (str "error", Jval.jstr e) ]

/-- The `optimization_record` appended to `_optimization_history` on
success. -/
def optimizeRecord (originalPrompt failureReason : Str) (r : ImprovedResult) : Jval :=
  Jval.jobj
    [ (str "original_prompt", Jval.jstr originalPrompt),
      (str "improved_prompt", r.improvedPrompt),
      (str "failure_reason", Jval.jstr failureReason),
      (str "changes", r.changesMade),
      (str "confidence", r.confidence) ]

/-- `DSpyOptimizer.optimize_prompt`. `enabled` is `self.enabled`; `improver`
models the DSPy `PromptImprover` call on the built context, which may raise.
Returns the result dict and the new `_optimization_history`. -/
def optimizePrompt (enabled : Bool) (improver : Str → Except Str ImprovedResult)
    (hist : List Jval) (originalPrompt failureReason : Str)
    (expected unexpected : List Str) (failedExamples : List FailedExample) :
    Jval × List Jval :=
  if enabled = false then (dspyDisabledResult originalPrompt, hist)
  else
    let context :=
      buildOptimizationContext originalPrompt failureReason expected unexpected failedExamples
    match improver context with
    | Except.ok r =>
      (Jval.jobj
        [ (str "improved_prompt", r.improvedPrompt),
          (str "changes_made", r.changesMade),
          (str "confidence", r.confidence),
          (str "reasoning", r.reasoning) ],
       hist ++ [optimizeRecord originalPrompt failureReason r])
    | Except.error e => (optimizeFailedResult originalPrompt e, hist)

/-! ## Helper lemmas on the dict model -/

lemma lookupKey_insertKey_self {α : Type} (k : Str) (v : α) (l : List (Str × α)) :
    lookupKey k (insertKey k v l) = some v := by
  induction l with
  | nil => simp [insertKey, lookupKey]
  | cons p rest ih =>
    obtain ⟨k', v'⟩ := p
    by_cases h : k' = k
    · simp [insertKey, lookupKey, h]
    · simp [insertKey, lookupKey, h, ih]

lemma lookupKey_eq_none {α : Type} (k : Str) (l : List (Str × α))
    (h : ∀ p ∈ l, p.1 ≠ k) : lookupKey k l = none := by
  induction l with
  | nil => rfl
  | cons p rest ih =>
    obtain ⟨k', v'⟩ := p
    have hk : k' ≠ k := h (k', v') (by simp)
    simp only [lookupKey, if_neg hk]
    exact ih (fun q hq => h q (by simp [hq]))

lemma insertKey_of_fresh {α : Type} (k : Str) (v : α) (l : List (Str × α))
    (h : ∀ p ∈ l, p.1 ≠ k) : insertKey k v l = l ++ [(k, v)] := by
  induction l with
  | nil => rfl
  | cons p rest ih =>
    obtain ⟨k', v'⟩ := p
    have hk : k' ≠ k := h (k', v') (by simp)
    simp only [insertKey, if_neg hk, List.cons_append, List.cons.injEq, true_and]
    exact ih (fun q hq => h q (by simp [hq]))

lemma insertKey_length_le {α : Type} (k : Str) (v : α) (l : List (Str × α)) :
    (insertKey k v l).length ≤ l.length + 1 := by
  induction l with
  | nil => simp [insertKey]
  | cons p rest ih =>
    obtain ⟨k', v'⟩ := p
    by_cases h : k' = k
    · simp [insertKey, h]
    · simp only [insertKey, if_neg h, List.length_cons]
      omega

/-! ## C1: the Root-Cause Advisor never raises -/

/-- C1: RootCauseAnalyzer.analyze_error and analyze_evaluation_failure never
raise to their caller: whichever internal step fails (building the context,
or the model call), the methods return the generic fallback diagnosis with
root_cause "Analysis failed" (for analyze_error carrying the suggested fix
"Manual investigation required") instead of propagating the exception. -/
theorem analyzer_never_raises :
    (∀ (e : Str) (llm : Str → Except Str Str) (st : AnalyzerState) (err : PyExn),
      analyzeError (Except.error e) llm st err = (errorFallback e, st, 0)) ∧
    (∀ (context : Str) (llm : Str → Except Str Str) (st : AnalyzerState) (err : PyExn) (e : Str),
      llm context = Except.error e →
      lookupKey (getCacheKey err) st.cache = none →
      analyzeError (Except.ok context) llm st err = (errorFallback e, st, 1)) ∧
    (∀ e : Str,
      jfield (str "root_cause") (errorFallback e) = some (Jval.jstr (str "Analysis failed")) ∧
      jfield (str "suggested_fixes") (errorFallback e) =
        some (Jval.jarr [Jval.jstr (str "Manual investigation required")])) ∧
    (∀ (e : Str) (llm : Str → Except Str Str),
      analyzeEvaluationFailure (Except.error e) llm = (evalErrorFallback e, 0)) ∧
    (∀ (context : Str) (llm : Str → Except Str Str) (e : Str),
      llm context = Except.error e →
      analyzeEvaluationFailure (Except.ok context) llm = (evalErrorFallback e, 1)) ∧
    (∀ e : Str,
      jfield (str "root_cause") (evalErrorFallback e) = some (Jval.jstr (str "Analysis failed"))) := by
  refine ⟨?_, ?_, ?_, ?_, ?_, ?_⟩
  · intro e llm st err
    rfl
  · intro context llm st err e hllm hcache
    simp [analyzeError, hcache, runAnalysis, hllm]
  · intro e
    exact ⟨rfl, rfl⟩
  · intro e llm
    rfl
  · intro context llm e hllm
    simp [analyzeEvaluationFailure, runEvalAnalysis, hllm]
  · intro e
    rfl

/-- Witness for C1 at a concrete failing model transport. -/
theorem analyzer_never_raises_witness :
    analyzeError (Except.ok (str "ctx")) (fun _ => Except.error (str "boom"))
        ⟨[]⟩ ⟨str "ValueError", str "bad"⟩ = (errorFallback (str "boom"), ⟨[]⟩, 1) ∧
    analyzeEvaluationFailure (Except.ok (str "ctx")) (fun _ => Except.error (str "boom")) =
      (evalErrorFallback (str "boom"), 1) :=
  ⟨analyzer_never_raises.2.1 (str "ctx") (fun _ => Except.error (str "boom"))
      ⟨[]⟩ ⟨str "ValueError", str "bad"⟩ (str "boom") rfl rfl,
   analyzer_never_raises.2.2.2.2.1 (str "ctx") (fun _ => Except.error (str "boom"))
      (str "boom") rfl⟩

/-! ## C2: evaluate raises exactly on a contract lookup miss -/

/-- C2: VertiGuard.evaluate raises an error if and only if the node name has
no entry in config.nodes; on a miss the ValueError is surfaced and the
evaluation engine is never invoked (0 engine calls); when the node exists the
call is delegated to the evaluation engine. -/
theorem evaluate_lookup_miss_spec :
    ∀ (α : Type) (cfg : VGConfig) (engine : NodeContract → Str → Str → Option Str → α)
      (nodeName inputData outputData : Str) (context : Option Str),
      ((∃ err, (vgEvaluate cfg engine nodeName inputData outputData context).1 =
          Except.error err) ↔ lookupKey nodeName cfg.nodes = none) ∧
      (lookupKey nodeName cfg.nodes = none →
        vgEvaluate cfg engine nodeName inputData outputData context =
          (Except.error (PyErr.valueError (str "Unknown node: " ++ nodeName)), 0)) ∧
      (∀ nc, lookupKey nodeName cfg.nodes = some nc →
        vgEvaluate cfg engine nodeName inputData outputData context =
          (Except.ok (engine nc inputData outputData context), 1)) := by
  intro α cfg engine nodeName inputData outputData context
  refine ⟨?_, ?_, ?_⟩
  · constructor
    · rintro ⟨err, herr⟩
      cases h : lookupKey nodeName cfg.nodes with
      | none => rfl
      | some nc => simp [vgEvaluate, h] at herr
    · intro h
      exact ⟨PyErr.valueError (str "Unknown node: " ++ nodeName), by simp [vgEvaluate, h]⟩
  · intro h
    simp [vgEvaluate, h]
  · intro nc h
    simp [vgEvaluate, h]

/-- Witness for C2 at a concrete one-node registry: a miss errors with no
engine call, a hit delegates. -/
theorem evaluate_lookup_miss_witness :
    (vgEvaluate (α := Nat) ⟨[(str "a", ⟨str "a", [], []⟩)]⟩ (fun _ _ _ _ => 7)
        (str "b") (str "i") (str "o") none =
      (Except.error (PyErr.valueError (str "Unknown node: " ++ str "b")), 0)) ∧
    (vgEvaluate (α := Nat) ⟨[(str "a", ⟨str "a", [], []⟩)]⟩ (fun _ _ _ _ => 7)
        (str "a") (str "i") (str "o") none = (Except.ok 7, 1)) :=
  ⟨(evaluate_lookup_miss_spec Nat ⟨[(str "a", ⟨str "a", [], []⟩)]⟩ (fun _ _ _ _ => 7)
      (str "b") (str "i") (str "o") none).2.1 rfl,
   (evaluate_lookup_miss_spec Nat ⟨[(str "a", ⟨str "a", [], []⟩)]⟩ (fun _ _ _ _ => 7)
      (str "a") (str "i") (str "o") none).2.2 ⟨str "a", [], []⟩ rfl⟩

/-! ## C4: telemetry sink failures never propagate -/

/-- C4: LLMObsBridge.annotate, submit_evaluation and flush catch every
exception from the underlying telemetry operation and return normally,
logging a warning only. -/
theorem bridge_never_propagates :
    ∀ op : Except Str Unit,
      (∃ w, bridgeAnnotate op = CallOutcome.normalReturn () w) ∧
      (∃ w, bridgeSubmitEvaluation op = CallOutcome.normalReturn () w) ∧
      (∃ w, bridgeFlush op = CallOutcome.normalReturn () w) ∧
      (∀ e, op = Except.error e →
        bridgeAnnotate op =
          CallOutcome.normalReturn () [str "Failed to annotate span: " ++ e] ∧
        bridgeSubmitEvaluation op =
          CallOutcome.normalReturn () [str "Failed to submit evaluation: " ++ e] ∧
        bridgeFlush op =
          CallOutcome.normalReturn () [str "Error flushing LLMObs: " ++ e]) := by
  intro op
  cases op with
  | ok u =>
    exact ⟨⟨[], rfl⟩, ⟨[], rfl⟩, ⟨[], rfl⟩, fun e he => by cases he⟩
  | error e =>
    exact ⟨⟨_, rfl⟩, ⟨_, rfl⟩, ⟨_, rfl⟩, fun e' he => by cases he; exact ⟨rfl, rfl, rfl⟩⟩

/-- Witness for C4 at a concrete sink failure. -/
theorem bridge_never_propagates_witness :
    bridgeAnnotate (Except.error (str "down")) =
      CallOutcome.normalReturn () [str "Failed to annotate span: " ++ str "down"] ∧
    bridgeFlush (Except.error (str "down")) =
      CallOutcome.normalReturn () [str "Error flushing LLMObs: " ++ str "down"] :=
  ⟨((bridge_never_propagates (Except.error (str "down"))).2.2.2 (str "down") rfl).1,
   ((bridge_never_propagates (Except.error (str "down"))).2.2.2 (str "down") rfl).2.2⟩

/-! ## C5: the failure-signature cache key and cache hits -/

/-- C5: exceptions whose type names agree and whose messages agree on their
first 100 characters yield the same cache key (type name plus message
truncated to 100 characters); a call finding its key cached returns the
stored analysis with no model call; and after a first successful call, a
second call with an equal-signature exception is served from the cache:
same analysis, unchanged state, zero model calls. -/
theorem cache_key_spec :
    (∀ e₁ e₂ : PyExn, e₁.typeName = e₂.typeName →
      List.take 100 e₁.message = List.take 100 e₂.message →
      getCacheKey e₁ = getCacheKey e₂) ∧
    (∀ (context : Str) (llm : Str → Except Str Str) (st : AnalyzerState) (err : PyExn) (a : Jval),
      lookupKey (getCacheKey err) st.cache = some a →
      analyzeError (Except.ok context) llm st err = (a, st, 0)) ∧
    (∀ (ctx₁ ctx₂ : Str) (llm₁ llm₂ : Str → Except Str Str) (st : AnalyzerState)
        (err₁ err₂ : PyExn) (resp : Str),
      lookupKey (getCacheKey err₁) st.cache = none →
      llm₁ ctx₁ = Except.ok resp →
      err₁.typeName = err₂.typeName →
      List.take 100 err₁.message = List.take 100 err₂.message →
      analyzeError (Except.ok ctx₂) llm₂ (analyzeError (Except.ok ctx₁) llm₁ st err₁).2.1 err₂ =
        ((analyzeError (Except.ok ctx₁) llm₁ st err₁).1,
         (analyzeError (Except.ok ctx₁) llm₁ st err₁).2.1, 0)) := by
  have hkey : ∀ e₁ e₂ : PyExn, e₁.typeName = e₂.typeName →
      List.take 100 e₁.message = List.take 100 e₂.message →
      getCacheKey e₁ = getCacheKey e₂ := by
    intro e₁ e₂ ht hm
    simp [getCacheKey, ht, hm]
  refine ⟨hkey, ?_, ?_⟩
  · intro context llm st err a hcache
    simp [analyzeError, hcache]
  · intro ctx₁ ctx₂ llm₁ llm₂ st err₁ err₂ resp hnone hresp ht hm
    have hfirst : analyzeError (Except.ok ctx₁) llm₁ st err₁ =
        (parseAnalysisResponse resp,
         ⟨insertKey (getCacheKey err₁) (parseAnalysisResponse resp) st.cache⟩, 1) := by
      simp [analyzeError, hnone, runAnalysis, hresp]
    rw [hfirst]
    have hk2 : getCacheKey err₂ = getCacheKey err₁ := hkey err₂ err₁ ht.symm hm.symm
    simp [analyzeError, hk2, lookupKey_insertKey_self]

/-- Witness for C5: a second analyze_error call with the same signature is a
cache hit. -/
theorem cache_key_spec_witness :
    analyzeError (Except.ok (str "c2")) (fun _ => Except.error (str "x"))
        (analyzeError (Except.ok (str "c1")) (fun _ => Except.ok (str "[1]"))
          ⟨[]⟩ ⟨str "ValueError", str "bad"⟩).2.1 ⟨str "ValueError", str "bad"⟩ =
      ((analyzeError (Except.ok (str "c1")) (fun _ => Except.ok (str "[1]"))
          ⟨[]⟩ ⟨str "ValueError", str "bad"⟩).1,
       (analyzeError (Except.ok (str "c1")) (fun _ => Except.ok (str "[1]"))
          ⟨[]⟩ ⟨str "ValueError", str "bad"⟩).2.1, 0) :=
  cache_key_spec.2.2 (str "c1") (str "c2") (fun _ => Except.ok (str "[1]"))
    (fun _ => Except.error (str "x")) ⟨[]⟩ ⟨str "ValueError", str "bad"⟩
    ⟨str "ValueError", str "bad"⟩ (str "[1]") rfl rfl rfl rfl

/-! ## C6: truncation and bounded prompt contributions -/

/-- C6: _truncate returns the text unchanged exactly when it fits the bound,
else the first maxLength characters plus the "... (truncated)" marker; the
truncated form of any string at bound 500 is at most 500 characters plus the
marker, and _build_error_context embeds exactly that truncated form for the
input_data and output_data strings. -/
theorem truncate_spec :
    (∀ (t : Str) (n : Nat),
      (t.length ≤ n → truncate t n = t) ∧
      (n < t.length → truncate t n = List.take n t ++ str "... (truncated)")) ∧
    (∀ s : Str, (truncate s 500).length ≤ 500 + (str "... (truncated)").length) ∧
    (∀ (errType errMsg : Str) (nodeName : Option Str) (stackTrace : Str)
        (s : Str) (outputData contextJson : Option Str),
      (str "## Input Data:\n```\n" ++ truncate s 500 ++ str "\n```\n") ∈
        buildErrorContextParts errType errMsg nodeName stackTrace (some s)
          outputData contextJson) ∧
    (∀ (errType errMsg : Str) (nodeName : Option Str) (stackTrace : Str)
        (inputData : Option Str) (s : Str) (contextJson : Option Str),
      (str "## Output Data (if any):\n```\n" ++ truncate s 500 ++ str "\n```\n") ∈
        buildErrorContextParts errType errMsg nodeName stackTrace inputData
          (some s) contextJson) := by
  refine ⟨?_, ?_, ?_, ?_⟩
  · intro t n
    constructor
    · intro h
      simp [truncate, h]
    · intro h
      simp [truncate, Nat.not_le.mpr h]
  · intro s
    by_cases h : s.length ≤ 500
    · simp only [truncate, if_pos h]
      omega
    · simp only [truncate, if_neg h, List.length_append, List.length_take]
      omega
  · intro errType errMsg nodeName stackTrace s outputData contextJson
    simp [buildErrorContextParts]
  · intro errType errMsg nodeName stackTrace inputData s contextJson
    simp [buildErrorContextParts]

/-- Witness for C6 at concrete strings: a short text passes through, a long
one is cut at the bound and marked. -/
theorem truncate_spec_witness :
    truncate (str "ab") 5 = str "ab" ∧
    truncate (str "abcdef") 3 = List.take 3 (str "abcdef") ++ str "... (truncated)" :=
  ⟨(truncate_spec.1 (str "ab") 5).1 (by decide),
   (truncate_spec.1 (str "abcdef") 3).2 (by decide)⟩

/-! ## C8: clear_cache empties the cache -/

/-- C8: immediately after clear_cache, get_cache_stats reports 0 cached
analyses, and a subsequent analyze_error call (whatever its failure
signature, previously seen or not) is not served from the cache: it issues
one model call again. -/
theorem clear_cache_spec :
    (∀ st : AnalyzerState, getCacheStats (clearCache st) = 0) ∧
    (∀ (st : AnalyzerState) (context : Str) (llm : Str → Except Str Str) (err : PyExn),
      (analyzeError (Except.ok context) llm (clearCache st) err).2.2 = 1) := by
  constructor
  · intro st
    rfl
  · intro st context llm err
    have hcache : lookupKey (getCacheKey err) (clearCache st).cache = none := rfl
    cases hrun : runAnalysis llm context with
    | ok a => simp [analyzeError, hcache, hrun]
    | error e => simp [analyzeError, hcache, hrun]

/-! ## C9: the module-level client global -/

/-- C9: get_client raises RuntimeError exactly when no client has been
stored by init; is_initialized is true exactly when the global is set; and
after init the stored global is the very client init returned. -/
theorem client_global_spec :
    (∀ g : Option VertiGuardClient,
      getClient g = Except.error (PyErr.runtimeError
          (str "VertiGuard not initialized. Call vertiguard.init() first.")) ↔ g = none) ∧
    (∀ g : Option VertiGuardClient, isInitialized g = true ↔ g ≠ none) ∧
    (∀ (cfg : VGConfig) (g : Option VertiGuardClient),
      getClient (initClient cfg g).2 = Except.ok (initClient cfg g).1) := by
  refine ⟨?_, ?_, ?_⟩
  · intro g
    cases g with
    | none => simp [getClient]
    | some c => simp [getClient]
  · intro g
    cases g with
    | none => simp [isInitialized]
    | some c => simp [isInitialized]
  · intro cfg g
    rfl

/-! ## C10: optimize_prompt's atomic fallback -/

/-- C10: DSpyOptimizer.optimize_prompt never raises: when DSPy is
unavailable, or when the optimization step fails, it returns a dict whose
improved_prompt is the original prompt unchanged, with changes_made = [],
confidence = 0.0, and an "error" field set; the history is untouched in
both failure cases. -/
theorem optimize_prompt_fallback_spec :
    (∀ (improver : Str → Except Str ImprovedResult) (hist : List Jval)
        (originalPrompt failureReason : Str) (expected unexpected : List Str)
        (failedExamples : List FailedExample),
      optimizePrompt false improver hist originalPrompt failureReason
          expected unexpected failedExamples = (dspyDisabledResult originalPrompt, hist)) ∧
    (∀ (improver : Str → Except Str ImprovedResult) (hist : List Jval)
        (originalPrompt failureReason : Str) (expected unexpected : List Str)
        (failedExamples : List FailedExample) (e : Str),
      improver (buildOptimizationContext originalPrompt failureReason
          expected unexpected failedExamples) = Except.error e →
      optimizePrompt true improver hist originalPrompt failureReason
          expected unexpected failedExamples = (optimizeFailedResult originalPrompt e, hist)) ∧
    (∀ p : Str,
      jfield (str "improved_prompt") (dspyDisabledResult p) = some (Jval.jstr p) ∧
      jfield (str "changes_made") (dspyDisabledResult p) = some (Jval.jarr []) ∧
      jfield (str "confidence") (dspyDisabledResult p) = some (Jval.jnum (str "0.0")) ∧
      jfield (str "error") (dspyDisabledResult p) =
        some (Jval.jstr (str "DSPy not installed or failed to initialize"))) ∧
    (∀ p e : Str,
      jfield (str "improved_prompt") (optimizeFailedResult p e) = some (Jval.jstr p) ∧
      jfield (str "changes_made") (optimizeFailedResult p e) = some (Jval.jarr []) ∧
      jfield (str "confidence") (optimizeFailedResult p e) = some (Jval.jnum (str "0.0")) ∧
      jfield (str "error") (optimizeFailedResult p e) = some (Jval.jstr e)) := by
  refine ⟨?_, ?_, ?_, ?_⟩
  · intro improver hist originalPrompt failureReason expected unexpected failedExamples
    rfl
  · intro improver hist originalPrompt failureReason expected unexpected failedExamples e h
    simp [optimizePrompt, h]
  · intro p
    exact ⟨rfl, rfl, rfl, rfl⟩
  · intro p e
    exact ⟨rfl, rfl, rfl, rfl⟩

/-- Witness for C10 at a concrete failing optimizer. -/
theorem optimize_prompt_fallback_witness :
    optimizePrompt true (fun _ => Except.error (str "lm down")) [] (str "orig")
        (str "why") [] [] [] = (optimizeFailedResult (str "orig") (str "lm down"), []) :=
  optimize_prompt_fallback_spec.2.1 (fun _ => Except.error (str "lm down")) []
    (str "orig") (str "why") [] [] [] (str "lm down") rfl

/-! ## C7: the analysis cache has no fixed bound -/

/-- The model transport used to refute the fixed-bound claim: it always
answers with the empty response. -/
def llmConst (_p : Str) : Except Str Str := Except.ok []

/-- The i-th of a family of exceptions with pairwise distinct failure
signatures. -/
def mkErr (i : Nat) : PyExn := ⟨List.replicate i 'a', []⟩

/-- A sequence of n analyze_error calls with pairwise distinct failure
signatures (each with a successfully built context). -/
def mkCalls (n : Nat) : List (Except Str Str × PyExn) :=
  (List.range n).map (fun i => (Except.ok [], mkErr i))

lemma getCacheKey_mkErr_length (i : Nat) : (getCacheKey (mkErr i)).length = i + 1 := by
  simp [getCacheKey, mkErr]

lemma runCalls_append (llm : Str → Except Str Str)
    (l₁ l₂ : List (Except Str Str × PyExn)) :
    ∀ st : AnalyzerState, runCalls llm st (l₁ ++ l₂) = runCalls llm (runCalls llm st l₁) l₂ := by
  induction l₁ with
  | nil => intro st; rfl
  | cons p rest ih =>
    intro st
    obtain ⟨b, e⟩ := p
    simp only [List.cons_append, runCalls]
    exact ih _

lemma cache_after_mkCalls : ∀ n : Nat,
    (runCalls llmConst ⟨[]⟩ (mkCalls n)).cache =
      (List.range n).map (fun i => (getCacheKey (mkErr i), parseAnalysisResponse [])) := by
  intro n
  induction n with
  | zero => rfl
  | succ n ih =>
    have hsplit : mkCalls (n + 1) = mkCalls n ++ [(Except.ok [], mkErr n)] := by
      simp [mkCalls, List.range_succ]
    have hfresh : ∀ p ∈ (List.range n).map
        (fun i => (getCacheKey (mkErr i), parseAnalysisResponse [])),
        p.1 ≠ getCacheKey (mkErr n) := by
      intro p hp
      simp only [List.mem_map, List.mem_range] at hp
      obtain ⟨i, hi, rfl⟩ := hp
      intro hcontra
      have := congrArg List.length hcontra
      rw [getCacheKey_mkErr_length, getCacheKey_mkErr_length] at this
      omega
    rw [hsplit, runCalls_append]
    have hstate : runCalls llmConst ⟨[]⟩ (mkCalls n) =
        ⟨(List.range n).map (fun i => (getCacheKey (mkErr i), parseAnalysisResponse []))⟩ := by
      cases hrc : runCalls llmConst ⟨[]⟩ (mkCalls n) with
      | mk c => rw [hrc] at ih; simp at ih; rw [ih]
    rw [hstate]
    simp only [runCalls]
    have hnone : lookupKey (getCacheKey (mkErr n))
        ((List.range n).map (fun i => (getCacheKey (mkErr i), parseAnalysisResponse []))) =
          none := lookupKey_eq_none _ _ hfresh
    have hrun : runAnalysis llmConst [] = Except.ok (parseAnalysisResponse []) := rfl
    simp only [analyzeError, hnone, hrun]
    rw [insertKey_of_fresh _ _ _ hfresh]
    simp [List.range_succ]

/-- C7 counterexample: the claim "there is a fixed bound B never exceeded by
the cache over any sequence of analyze_error calls" is false: for every
candidate bound, enough calls with distinct failure signatures exceed it. -/
theorem cache_unbounded_counterexample :
    ¬ ∃ B : Nat, ∀ (llm : Str → Except Str Str) (calls : List (Except Str Str × PyExn)),
        getCacheStats (runCalls llm ⟨[]⟩ calls) ≤ B := by
  rintro ⟨B, h⟩
  have h1 := h llmConst (mkCalls (B + 1))
  have h2 : getCacheStats (runCalls llmConst ⟨[]⟩ (mkCalls (B + 1))) = B + 1 := by
    rw [getCacheStats, cache_after_mkCalls]
    simp
  omega

/-- C7 (amended): the cache admits no fixed bound B; what holds is the
per-call bound: each analyze_error call adds at most one entry, so after any
sequence of calls the cache holds at most its initial size plus the number
of calls, and it is emptied only by clear_cache. -/
theorem cache_growth_per_call :
    ∀ (calls : List (Except Str Str × PyExn)) (llm : Str → Except Str Str)
      (st : AnalyzerState),
      getCacheStats (runCalls llm st calls) ≤ getCacheStats st + calls.length := by
  intro calls
  induction calls with
  | nil =>
    intro llm st
    simp [runCalls]
  | cons p rest ih =>
    intro llm st
    obtain ⟨b, e⟩ := p
    have hstep : getCacheStats (analyzeError b llm st e).2.1 ≤ getCacheStats st + 1 := by
      cases b with
      | error msg => simp [analyzeError, getCacheStats]
      | ok context =>
        cases hc : lookupKey (getCacheKey e) st.cache with
        | some a => simp [analyzeError, hc, getCacheStats]
        | none =>
          cases hr : runAnalysis llm context with
          | ok a =>
            simp only [analyzeError, hc, hr, getCacheStats]
            exact insertKey_length_le _ _ _
          | error msg => simp [analyzeError, hc, hr, getCacheStats]
    calc getCacheStats (runCalls llm (analyzeError b llm st e).2.1 rest)
        ≤ getCacheStats (analyzeError b llm st e).2.1 + rest.length := ih llm _
      _ ≤ getCacheStats st + 1 + rest.length := by omega
      _ = getCacheStats st + (List.cons (b, e) rest).length := by simp; omega

/-! ## C3: fenced responses parse like bare responses

The development below shows that wrapping a valid-JSON response in the
markdown fence ```json ... ``` does not change the string fed to
`json.loads`, hence not the parsed analysis; and that a response whose
cleaned text is not valid JSON degrades to the fallback dict. -/

/-- A response body wrapped in the markdown fence the claim speaks about. -/
def wrapFences (t : Str) : Str := str "```json\n" ++ t ++ str "\n```"

lemma pyWs_backtick : pyWs '\x60' = false := by decide

lemma pyWs_newline : pyWs '\n' = true := by decide

/-- Stripping a fenced response is a no-op: it starts and ends with a
backtick, which is not whitespace. -/
lemma pyStrip_wrapFences (t : Str) : pyStrip (wrapFences t) = wrapFences t := by
  have form1 : wrapFences t = '\x60' :: (str "``json\n" ++ (t ++ str "\n```")) := by
    simp only [wrapFences, List.append_assoc]
    rfl
  have form2 : wrapFences t = (str "```json\n" ++ (t ++ str "\n``")) ++ ['\x60'] := by
    simp only [wrapFences, List.append_assoc]
    have h : str "\n```" = str "\n``" ++ ['\x60'] := rfl
    rw [h]
  have hdrop : List.dropWhile pyWs (wrapFences t) = wrapFences t := by
    rw [form1, List.dropWhile_cons]
    simp [pyWs_backtick]
  have hrdrop : List.rdropWhile pyWs (wrapFences t) = wrapFences t := by
    rw [form2]
    exact List.rdropWhile_concat_neg pyWs _ '\x60' (by simp [pyWs_backtick])
  simp only [pyStrip, hdrop, hrdrop]

/-- Dropping the leading fence of a wrapped response leaves newline, body,
trailing fence. -/
lemma wrapFences_decomp (t : Str) :
    wrapFences t = str "```json" ++ ('\n' :: (t ++ str "\n```")) := rfl

lemma clean_wrapFences (t : Str) : cleanResponseText (wrapFences t) = pyStrip t := by
  have hx : List.drop 7 (wrapFences t) = '\n' :: (t ++ str "\n```") := by
    rw [wrapFences_decomp]
    exact List.drop_left' (by rfl)
  have hstart : pyStartsWith (str "```json") (wrapFences t) = true := by
    rw [pyStartsWith, decide_eq_true_eq, wrapFences_decomp]
    exact List.prefix_append _ _
  have hnostart : pyStartsWith (str "```") ('\n' :: (t ++ str "\n```")) = false := by
    rw [pyStartsWith]
    simp only [decide_eq_false_iff_not]
    intro hpre
    have h3 : str "```" = '\x60' :: str "``" := rfl
    rw [h3, List.cons_prefix_cons] at hpre
    exact absurd hpre.1 (by decide)
  have hsfx : ('\n' :: (t ++ str "\n```")) = ('\n' :: (t ++ ['\n'])) ++ str "```" := by
    have h : str "\n```" = ['\n'] ++ str "```" := rfl
    rw [h, ← List.append_assoc]
    rfl
  have hends : pyEndsWith (str "```") ('\n' :: (t ++ str "\n```")) = true := by
    rw [pyEndsWith, decide_eq_true_eq, hsfx]
    exact List.suffix_append _ _
  have htake : List.take (('\n' :: (t ++ str "\n```")).length - 3) ('\n' :: (t ++ str "\n```"))
      = '\n' :: (t ++ ['\n']) := by
    rw [hsfx]
    refine List.take_left' ?_
    have h3 : (str "```").length = 3 := rfl
    have h4 : (str "\n```").length = 4 := rfl
    simp only [List.length_append, List.length_cons, h3, h4, List.length_singleton]
    omega
  have hfinal : pyStrip ('\n' :: (t ++ ['\n'])) = pyStrip t := by
    have hd : List.dropWhile pyWs ('\n' :: (t ++ ['\n'])) =
        List.dropWhile pyWs (t ++ ['\n']) := by
      rw [List.dropWhile_cons]
      simp [pyWs_newline]
    cases h : List.dropWhile pyWs t with
    | nil =>
      have h1 : List.dropWhile pyWs (t ++ ['\n']) = ([] : Str) := by
        rw [List.dropWhile_append, h]
        simp [List.dropWhile_cons, pyWs_newline]
      simp only [pyStrip, hd, h1, h, List.rdropWhile_nil]
    | cons d dt =>
      have h1 : List.dropWhile pyWs (t ++ ['\n']) = (d :: dt) ++ ['\n'] := by
        rw [List.dropWhile_append, h]
        simp
      simp only [pyStrip, hd, h1, h]
      exact List.rdropWhile_concat_pos pyWs _ '\n' pyWs_newline
  simp only [cleanResponseText, pyStrip_wrapFences, hstart, if_true, hx, hnostart,
    Bool.false_eq_true, if_false, hends, htake, hfinal]

/-- A character that can legitimately begin or end a parsed JSON value: not
whitespace and not a backtick. -/
def goodChar (c : Char) : Bool := !(pyWs c) && !(c = '\x60')

lemma goodChar_of_not_special (c : Char) (h1 : c ≠ ' ') (h2 : c ≠ '\t')
    (h3 : c ≠ '\n') (h4 : c ≠ '\r') (h5 : c ≠ '\x0b') (h6 : c ≠ '\x0c')
    (h7 : c ≠ '\x60') : goodChar c = true := by
  simp [goodChar, pyWs, jsonWs, h1, h2, h3, h4, h5, h6, h7]

lemma numChar_goodChar (c : Char) (h : numChar c = true) : goodChar c = true := by
  simp only [numChar, Bool.or_eq_true, decide_eq_true_eq] at h
  rcases h with ((((h | h) | h) | h) | h) | h
  · refine goodChar_of_not_special c ?_ ?_ ?_ ?_ ?_ ?_ ?_ <;>
      (intro heq; subst heq; exact absurd h (by decide))
  · subst h; decide
  · subst h; decide
  · subst h; decide
  · subst h; decide
  · subst h; decide

/-- The parser consumed a nonempty chunk ending in a good character: the
input is that chunk followed by the remainder. -/
def Consumed (s rest : Str) : Prop :=
  ∃ pre c, s = pre ++ c :: rest ∧ goodChar c = true

lemma Consumed.mono_left {s rest : Str} (h : Consumed s rest) (x : Str) :
    Consumed (x ++ s) rest := by
  obtain ⟨pre, c, h1, h2⟩ := h
  exact ⟨x ++ pre, c, by rw [h1, List.append_assoc], h2⟩

lemma Consumed.cons {s rest : Str} (h : Consumed s rest) (d : Char) :
    Consumed (d :: s) rest :=
  h.mono_left [d]

lemma Consumed.trans {s mid rest : Str} (h1 : Consumed s mid) (h2 : Consumed mid rest) :
    Consumed s rest := by
  obtain ⟨p1, c1, hs1, _⟩ := h1
  obtain ⟨p2, c2, hs2, g2⟩ := h2
  refine ⟨p1 ++ c1 :: p2, c2, ?_, g2⟩
  rw [hs1, hs2]
  simp

lemma skipWs_decomp (s : Str) : ∃ w, s = w ++ skipWs s :=
  ⟨List.takeWhile jsonWs s, (List.takeWhile_append_dropWhile (p := jsonWs) (l := s)).symm⟩

lemma consumed_of_skipWs {s rest : Str} (h : Consumed (skipWs s) rest) : Consumed s rest := by
  obtain ⟨w, hw⟩ := skipWs_decomp s
  rw [hw]
  exact h.mono_left w

lemma headIs_decomp (c : Char) (s : Str) (h : headIs c s = true) : s = c :: s.tail := by
  cases s with
  | nil => simp [headIs] at h
  | cons d r =>
    simp only [headIs, decide_eq_true_eq] at h
    subst h
    rfl

lemma consumed_headIs {c : Char} {s : Str} (h : headIs c s = true)
    (g : goodChar c = true) : Consumed s s.tail :=
  ⟨[], c, by simpa using headIs_decomp c s h, g⟩

lemma parseJString_consumed : ∀ (f : Nat) (s o rest : Str),
    parseJString f s = some (o, rest) → ∃ pre, s = pre ++ '"' :: rest := by
  intro f
  induction f with
  | zero => intro s o rest h; simp [parseJString] at h
  | succ f ih =>
    intro s o rest h
    cases s with
    | nil => simp [parseJString] at h
    | cons c cs =>
      by_cases h1 : c = '"'
      · subst h1
        simp only [parseJString, if_pos rfl] at h
        cases h
        exact ⟨[], rfl⟩
      · by_cases h2 : c = '\\'
        · subst h2
          cases cs with
          | nil => simp [parseJString] at h
          | cons d cs2 =>
            have hstep : parseJString (Nat.succ f) ('\\' :: d :: cs2) =
                Option.map (fun p => (d :: p.1, p.2)) (parseJString f cs2) := rfl
            rw [hstep, Option.map_eq_some'] at h
            obtain ⟨⟨o', rest'⟩, hp, heq⟩ := h
            cases heq
            obtain ⟨pre, hpre⟩ := ih cs2 o' rest' hp
            exact ⟨'\\' :: d :: pre, by rw [hpre]; simp⟩
        · simp only [parseJString, if_neg h1, if_neg h2] at h
          rw [Option.map_eq_some'] at h
          obtain ⟨⟨o', rest'⟩, hp, heq⟩ := h
          cases heq
          obtain ⟨pre, hpre⟩ := ih cs o' rest' hp
          exact ⟨c :: pre, by rw [hpre]; simp⟩

lemma parseNumber_consumed (s lit rest : Str) (h : parseNumber s = some (lit, rest)) :
    Consumed s rest := by
  simp only [parseNumber] at h
  by_cases hl : List.takeWhile numChar s = []
  · simp [hl] at h
  · rw [if_neg hl] at h
    cases h
    obtain ⟨li, c, hconcat⟩ : ∃ li c, List.takeWhile numChar s = li ++ [c] := by
      rcases List.eq_nil_or_concat (List.takeWhile numChar s) with h' | ⟨li, c, h'⟩
      · exact absurd h' hl
      · exact ⟨li, c, by simpa using h'⟩
    have hc : numChar c = true := List.mem_takeWhile_imp (by rw [hconcat]; simp)
    refine ⟨li, c, ?_, numChar_goodChar c hc⟩
    calc s = List.takeWhile numChar s ++ List.dropWhile numChar s :=
          (List.takeWhile_append_dropWhile (p := numChar) (l := s)).symm
    _ = (li ++ [c]) ++ List.dropWhile numChar s := by rw [hconcat]
    _ = li ++ c :: List.dropWhile numChar s := by simp

lemma parseValue_head (f : Nat) (s : Str) (x : Jval × Str)
    (h : parseValue f s = some x) : ∃ c r, s = c :: r ∧ goodChar c = true := by
  cases f with
  | zero => simp [parseValue] at h
  | succ f =>
    cases s with
    | nil => simp [parseValue] at h
    | cons c rest =>
      refine ⟨c, rest, rfl, ?_⟩
      by_cases h1 : c = '"'
      · subst h1; decide
      by_cases h2 : c = '{'
      · subst h2; decide
      by_cases h3 : c = '['
      · subst h3; decide
      by_cases h4 : c = 't'
      · subst h4; decide
      by_cases h5 : c = 'f'
      · subst h5; decide
      by_cases h6 : c = 'n'
      · subst h6; decide
      by_cases h7 : (c = '-' || c.isDigit) = true
      · simp only [Bool.or_eq_true, decide_eq_true_eq] at h7
        rcases h7 with hc | hd
        · subst hc; decide
        · apply numChar_goodChar
          simp [numChar, hd]
      · simp only [parseValue, if_neg h1, if_neg h2, if_neg h3, if_neg h4,
          if_neg h5, if_neg h6, if_neg h7] at h
        exact Option.noConfusion h

lemma parse_consumed : ∀ f : Nat,
    (∀ s v rest, parseValue f s = some (v, rest) → Consumed s rest) ∧
    (∀ s vs rest, parseItems f s = some (vs, rest) → Consumed s rest) ∧
    (∀ s ms rest, parseMembers f s = some (ms, rest) → Consumed s rest) := by
  intro f
  induction f with
  | zero =>
    refine ⟨?_, ?_, ?_⟩ <;> (intro s a rest h; simp [parseValue, parseItems, parseMembers] at h)
  | succ f ih =>
    obtain ⟨ihv, ihi, ihm⟩ := ih
    refine ⟨?_, ?_, ?_⟩
    · -- parseValue
      intro s v rest h
      cases s with
      | nil => simp [parseValue] at h
      | cons c cs =>
        simp only [parseValue] at h
        by_cases h1 : c = '"'
        · rw [if_pos h1, Option.map_eq_some'] at h
          obtain ⟨⟨o, rest'⟩, hp, heq⟩ := h
          cases heq
          obtain ⟨pre, hpre⟩ := parseJString_consumed f cs o _ hp
          exact Consumed.cons ⟨pre, '"', hpre, by decide⟩ c
        rw [if_neg h1] at h
        by_cases h2 : c = '{'
        · rw [if_pos h2] at h
          by_cases hh : headIs '}' (skipWs cs) = true
          · rw [if_pos hh] at h
            cases h
            exact Consumed.cons (consumed_of_skipWs (consumed_headIs hh (by decide))) c
          · rw [if_neg hh, Option.map_eq_some'] at h
            obtain ⟨⟨ms, rest'⟩, hp, heq⟩ := h
            cases heq
            exact Consumed.cons (consumed_of_skipWs (ihm _ _ _ hp)) c
        rw [if_neg h2] at h
        by_cases h3 : c = '['
        · rw [if_pos h3] at h
          by_cases hh : headIs ']' (skipWs cs) = true
          · rw [if_pos hh] at h
            cases h
            exact Consumed.cons (consumed_of_skipWs (consumed_headIs hh (by decide))) c
          · rw [if_neg hh, Option.map_eq_some'] at h
            obtain ⟨⟨vs, rest'⟩, hp, heq⟩ := h
            cases heq
            exact Consumed.cons (consumed_of_skipWs (ihi _ _ _ hp)) c
        rw [if_neg h3] at h
        by_cases h4 : c = 't'
        · rw [if_pos h4] at h
          by_cases hp : pyStartsWith (str "rue") cs = true
          · rw [if_pos hp] at h
            cases h
            rw [pyStartsWith, decide_eq_true_eq] at hp
            obtain ⟨u, hu⟩ := hp
            have hdrop : List.drop 3 cs = u := by rw [← hu]; exact List.drop_left' rfl
            refine Consumed.cons ⟨['r', 'u'], 'e', ?_, by decide⟩ c
            rw [hdrop, ← hu]
            rfl
          · rw [if_neg hp] at h
            cases h
        rw [if_neg h4] at h
        by_cases h5 : c = 'f'
        · rw [if_pos h5] at h
          by_cases hp : pyStartsWith (str "alse") cs = true
          · rw [if_pos hp] at h
            cases h
            rw [pyStartsWith, decide_eq_true_eq] at hp
            obtain ⟨u, hu⟩ := hp
            have hdrop : List.drop 4 cs = u := by rw [← hu]; exact List.drop_left' rfl
            refine Consumed.cons ⟨['a', 'l', 's'], 'e', ?_, by decide⟩ c
            rw [hdrop, ← hu]
            rfl
          · rw [if_neg hp] at h
            cases h
        rw [if_neg h5] at h
        by_cases h6 : c = 'n'
        · rw [if_pos h6] at h
          by_cases hp : pyStartsWith (str "ull") cs = true
          · rw [if_pos hp] at h
            cases h
            rw [pyStartsWith, decide_eq_true_eq] at hp
            obtain ⟨u, hu⟩ := hp
            have hdrop : List.drop 3 cs = u := by rw [← hu]; exact List.drop_left' rfl
            refine Consumed.cons ⟨['u', 'l'], 'l', ?_, by decide⟩ c
            rw [hdrop, ← hu]
            rfl
          · rw [if_neg hp] at h
            cases h
        rw [if_neg h6] at h
        by_cases h7 : (c = '-' || c.isDigit) = true
        · rw [if_pos h7, Option.map_eq_some'] at h
          obtain ⟨⟨lit, rest'⟩, hp, heq⟩ := h
          cases heq
          exact parseNumber_consumed _ _ _ hp
        · rw [if_neg h7] at h
          cases h
    · -- parseItems
      intro s vs rest h
      simp only [parseItems] at h
      cases hv : parseValue f s with
      | none => rw [hv] at h; cases h
      | some p =>
        obtain ⟨v, s1⟩ := p
        rw [hv] at h
        simp only at h
        by_cases hc : headIs ',' (skipWs s1) = true
        · rw [if_pos hc] at h
          cases hrec : parseItems f (skipWs (skipWs s1).tail) with
          | none => rw [hrec] at h; cases h
          | some q =>
            obtain ⟨vs', s3⟩ := q
            rw [hrec] at h
            simp only at h
            cases h
            have k6 : Consumed ((skipWs s1).tail) rest := consumed_of_skipWs (ihi _ _ _ hrec)
            have k5 : Consumed s1 rest := by
              refine consumed_of_skipWs ?_
              rw [headIs_decomp ',' (skipWs s1) hc]
              exact k6.cons ','
            exact (ihv _ _ _ hv).trans k5
        · rw [if_neg hc] at h
          by_cases hb : headIs ']' (skipWs s1) = true
          · rw [if_pos hb] at h
            cases h
            exact (ihv _ _ _ hv).trans
              (consumed_of_skipWs (consumed_headIs hb (by decide)))
          · rw [if_neg hb] at h
            cases h
    · -- parseMembers
      intro s ms rest h
      simp only [parseMembers] at h
      by_cases hq : headIs '"' s = true
      · rw [if_pos hq] at h
        cases hk : parseJString f s.tail with
        | none => rw [hk] at h; cases h
        | some p =>
          obtain ⟨key, s2⟩ := p
          rw [hk] at h
          simp only at h
          by_cases hcolon : headIs ':' (skipWs s2) = true
          · rw [if_pos hcolon] at h
            cases hv : parseValue f (skipWs (skipWs s2).tail) with
            | none => rw [hv] at h; cases h
            | some q =>
              obtain ⟨v, s4⟩ := q
              rw [hv] at h
              simp only at h
              obtain ⟨pk, hpk⟩ := parseJString_consumed f s.tail key s2 hk
              have c1 : Consumed s s.tail := consumed_headIs hq (by decide)
              have c2 : Consumed s.tail s2 := ⟨pk, '"', hpk, by decide⟩
              have c3 : Consumed s2 (skipWs s2).tail :=
                consumed_of_skipWs (consumed_headIs hcolon (by decide))
              have c4 : Consumed (skipWs s2).tail s4 := consumed_of_skipWs (ihv _ _ _ hv)
              have hhead : Consumed s s4 := ((c1.trans c2).trans c3).trans c4
              by_cases hcomma : headIs ',' (skipWs s4) = true
              · rw [if_pos hcomma] at h
                cases hrec : parseMembers f (skipWs (skipWs s4).tail) with
                | none => rw [hrec] at h; cases h
                | some r =>
                  obtain ⟨ms', s6⟩ := r
                  rw [hrec] at h
                  simp only at h
                  cases h
                  have k6 : Consumed ((skipWs s4).tail) rest :=
                    consumed_of_skipWs (ihm _ _ _ hrec)
                  have k5 : Consumed s4 rest := by
                    refine consumed_of_skipWs ?_
                    rw [headIs_decomp ',' (skipWs s4) hcomma]
                    exact k6.cons ','
                  exact hhead.trans k5
              · rw [if_neg hcomma] at h
                by_cases hbrace : headIs '}' (skipWs s4) = true
                · rw [if_pos hbrace] at h
                  cases h
                  exact hhead.trans
                    (consumed_of_skipWs (consumed_headIs hbrace (by decide)))
                · rw [if_neg hbrace] at h
                  cases h
          · rw [if_neg hcolon] at h
            cases h
      · rw [if_neg hq] at h
        cases h

lemma goodChar_elim (c : Char) (h : goodChar c = true) : pyWs c = false ∧ c ≠ '\x60' := by
  simpa only [goodChar, Bool.and_eq_true, Bool.not_eq_true',
    decide_eq_false_iff_not] using h

lemma rdropWhile_append_allWs (l₁ l₂ : Str) (h : ∀ x ∈ l₂, pyWs x = true) :
    List.rdropWhile pyWs (l₁ ++ l₂) = List.rdropWhile pyWs l₁ := by
  induction l₂ using List.reverseRecOn with
  | nil => simp
  | append_singleton l₂ a ih =>
    have ha : pyWs a = true := h a (by simp)
    rw [← List.append_assoc, List.rdropWhile_concat_pos pyWs _ a ha]
    exact ih (fun x hx => h x (by simp [hx]))

lemma dropWhile_pyWs_of_jsonWs (t : Str) (c : Char) (r : Str)
    (h : List.dropWhile jsonWs t = c :: r) (hc : pyWs c = false) :
    List.dropWhile pyWs t = c :: r := by
  induction t with
  | nil => simp at h
  | cons d t' ih =>
    rw [List.dropWhile_cons] at h ⊢
    by_cases hd : jsonWs d = true
    · rw [if_pos hd] at h
      rw [if_pos (by simp [pyWs, hd])]
      exact ih h
    · rw [if_neg hd] at h
      cases h
      rw [if_neg (by simp [hc])]

lemma valid_strip_shape (t : Str) (v : Jval) (h : jsonLoads t = some v) :
    ∃ hd tl pre ce, pyStrip t = hd :: tl ∧ pyStrip t = pre ++ [ce] ∧
      goodChar hd = true ∧ goodChar ce = true := by
  obtain ⟨x, rest, hp, hrest⟩ :
      ∃ x rest, parseValue (2 * t.length + 2) (skipWs t) = some (x, rest) ∧
        skipWs rest = [] := by
    rw [jsonLoads] at h
    cases hq : parseValue (2 * t.length + 2) (skipWs t) with
    | none => rw [hq] at h; cases h
    | some p =>
      obtain ⟨x, rest⟩ := p
      rw [hq] at h
      simp only at h
      by_cases hr : skipWs rest = []
      · exact ⟨x, rest, rfl, hr⟩
      · rw [if_neg hr] at h; cases h
  obtain ⟨c₀, r₀, hhead, hg₀⟩ := parseValue_head _ _ _ hp
  obtain ⟨pre, ce, hdec, hge⟩ := (parse_consumed _).1 _ _ _ hp
  have hws : ∀ y ∈ rest, pyWs y = true := by
    intro y hy
    have := (List.dropWhile_eq_nil_iff).mp hrest y hy
    simp [pyWs, this]
  have hg₀' : pyWs c₀ = false := (goodChar_elim c₀ hg₀).1
  have hge' : pyWs ce = false := (goodChar_elim ce hge).1
  have hpdrop : List.dropWhile pyWs t = c₀ :: r₀ :=
    dropWhile_pyWs_of_jsonWs t c₀ r₀ (by simpa [skipWs] using hhead) hg₀'
  have hconn : (c₀ :: r₀ : Str) = pre ++ ce :: rest := by rw [← hhead, hdec]
  have hstrip : pyStrip t = pre ++ [ce] := by
    calc pyStrip t = List.rdropWhile pyWs (List.dropWhile pyWs t) := rfl
    _ = List.rdropWhile pyWs (c₀ :: r₀) := by rw [hpdrop]
    _ = List.rdropWhile pyWs ((pre ++ [ce]) ++ rest) := by rw [hconn]; simp
    _ = List.rdropWhile pyWs (pre ++ [ce]) := rdropWhile_append_allWs _ _ hws
    _ = pre ++ [ce] := List.rdropWhile_concat_neg pyWs _ ce (by simp [hge'])
  cases pre with
  | nil => exact ⟨ce, [], [], ce, by simpa using hstrip, hstrip, hge, hge⟩
  | cons p0 ps =>
    have hp0 : p0 = c₀ := by
      have := hconn
      simp only [List.cons_append, List.cons.injEq] at this
      exact this.1.symm
    refine ⟨p0, ps ++ [ce], p0 :: ps, ce, ?_, hstrip, ?_, hge⟩
    · rw [hstrip]; simp
    · rw [hp0]; exact hg₀

lemma clean_eq_of_strip_shape (t : Str) (hd : Char) (tl pre : Str) (ce : Char)
    (h1 : pyStrip t = hd :: tl) (h2 : pyStrip t = pre ++ [ce])
    (hghd : goodChar hd = true) (hgce : goodChar ce = true) :
    cleanResponseText t = pyStrip t := by
  have hhd := goodChar_elim hd hghd
  have hce := goodChar_elim ce hgce
  have hns1 : pyStartsWith (str "```json") (pyStrip t) = false := by
    rw [pyStartsWith]
    simp only [decide_eq_false_iff_not]
    intro hpre
    rw [h1] at hpre
    have h3 : str "```json" = '\x60' :: str "``json" := rfl
    rw [h3, List.cons_prefix_cons] at hpre
    exact hhd.2 hpre.1.symm
  have hns2 : pyStartsWith (str "```") (pyStrip t) = false := by
    rw [pyStartsWith]
    simp only [decide_eq_false_iff_not]
    intro hpre
    rw [h1] at hpre
    have h3 : str "```" = '\x60' :: str "``" := rfl
    rw [h3, List.cons_prefix_cons] at hpre
    exact hhd.2 hpre.1.symm
  have hne : pyEndsWith (str "```") (pyStrip t) = false := by
    rw [pyEndsWith]
    simp only [decide_eq_false_iff_not]
    intro hs
    obtain ⟨u, hu⟩ := hs
    rw [h2] at hu
    have hg1 : (u ++ str "```").getLast? = some '\x60' := by
      have hsp : (u ++ str "```" : Str) = (u ++ str "``") ++ ['\x60'] := by
        have : str "```" = str "``" ++ ['\x60'] := rfl
        rw [this, List.append_assoc]
      rw [hsp, List.getLast?_concat]
    rw [hu, List.getLast?_concat] at hg1
    exact hce.2 (Option.some.inj hg1)
  have hidem : pyStrip (pyStrip t) = pyStrip t := by
    have d1 : List.dropWhile pyWs (pyStrip t) = pyStrip t := by
      rw [h1, List.dropWhile_cons, if_neg (by simp [hhd.1])]
    have d2 : List.rdropWhile pyWs (pyStrip t) = pyStrip t := by
      rw [h2]
      exact List.rdropWhile_concat_neg pyWs _ ce (by simp [hce.1])
    calc pyStrip (pyStrip t) = List.rdropWhile pyWs (List.dropWhile pyWs (pyStrip t)) := rfl
    _ = List.rdropWhile pyWs (pyStrip t) := by rw [d1]
    _ = pyStrip t := d2
  simp only [cleanResponseText, hns1, Bool.false_eq_true, if_false, hns2, hne, hidem]

lemma clean_of_valid (t : Str) (v : Jval) (h : jsonLoads t = some v) :
    cleanResponseText t = pyStrip t := by
  obtain ⟨hd, tl, pre, ce, h1, h2, hghd, hgce⟩ := valid_strip_shape t v h
  exact clean_eq_of_strip_shape t hd tl pre ce h1 h2 hghd hgce

/-- C3: for every model response text that is valid JSON, the advisor's
response parsing (in _run_analysis and _run_evaluation_analysis) produces the
same parsed analysis for the text wrapped in markdown code fences
(```json ... ```) as for the bare text; and every response whose
fence-stripped text is not valid JSON yields the fallback analysis dict
carrying that text instead of a raised JSON decode error. -/
theorem fenced_response_parse_spec :
    (∀ (t : Str) (v : Jval), jsonLoads t = some v →
      parseAnalysisResponse (wrapFences t) = parseAnalysisResponse t ∧
      parseEvalAnalysisResponse (wrapFences t) = parseEvalAnalysisResponse t) ∧
    (∀ s : Str, jsonLoads (cleanResponseText s) = none →
      parseAnalysisResponse s = analysisParseFallback (cleanResponseText s) ∧
      parseEvalAnalysisResponse s = evalParseFallback (cleanResponseText s)) := by
  constructor
  · intro t v h
    have hc : cleanResponseText (wrapFences t) = cleanResponseText t := by
      rw [clean_wrapFences, clean_of_valid t v h]
    constructor
    · simp only [parseAnalysisResponse, hc]
    · simp only [parseEvalAnalysisResponse, hc]
  · intro s h
    constructor
    · simp only [parseAnalysisResponse, h]
    · simp only [parseEvalAnalysisResponse, h]

/-- Witness for C3: a concrete valid JSON response parses identically fenced
and bare, and a concrete non-JSON response degrades to the fallback dict. -/
theorem fenced_response_parse_witness :
    jsonLoads (str "[1, 2]") = some (Jval.jarr [Jval.jnum (str "1"), Jval.jnum (str "2")]) ∧
    parseAnalysisResponse (wrapFences (str "[1, 2]")) = parseAnalysisResponse (str "[1, 2]") ∧
    jsonLoads (cleanResponseText (str "not json")) = none ∧
    parseAnalysisResponse (str "not json") =
      analysisParseFallback (cleanResponseText (str "not json")) :=
  ⟨rfl,
   (fenced_response_parse_spec.1 (str "[1, 2]")
      (Jval.jarr [Jval.jnum (str "1"), Jval.jnum (str "2")]) rfl).1,
   rfl,
   (fenced_response_parse_spec.2 (str "not json") rfl).1⟩
